import Mathlib

/-!
Shallow embedding of the PR reviewer assignment service
(`internal/service/service.go`, `internal/service/bulk_deactivate.go`,
data model from `internal/models`).

The database tables (`teams`, `users`, `pull_requests`, `pr_reviewers`)
are embedded as lists inside a `DBState`; each service operation becomes
a function from `DBState` to `Except String (DBState × result)`, where
the `String` of the error is the exact message built by `fmt.Errorf` in
the Go code, and an `error` result models a rolled-back transaction
(no state change).  `math/rand` calls are embedded as explicit
parameters: `rand.Perm`/`rand.Shuffle` as a permutation of
`List.range n`, and `rand.Intn n` as an arbitrary `k` reduced mod `n`.
`ORDER BY user_id` (byte-wise string comparison in the ASCII range) is
embedded as an insertion sort over code-point comparison.
-/

namespace PRService

/-- `models.PullRequestStatus`: `"OPEN"` or `"MERGED"`. -/
inductive PullRequestStatus where
  | OPEN
  | MERGED
deriving DecidableEq, Repr

/-- A row of the `users` table (`models.User`). -/
structure User where
  userID : String
  username : String
  teamName : String
  isActive : Bool
deriving DecidableEq, Repr

/-- `models.TeamMember`. -/
structure TeamMember where
  userID : String
  username : String
  isActive : Bool
deriving DecidableEq, Repr

/-- `models.Team` as received by `CreateTeam`. -/
structure Team where
  teamName : String
  members : List TeamMember
deriving DecidableEq, Repr

/-- A row of the `pull_requests` table.  Timestamps are abstracted to `Nat`. -/
structure PullRequestRow where
  prID : String
  prName : String
  authorID : String
  status : PullRequestStatus
  createdAt : Nat
  mergedAt : Option Nat
deriving DecidableEq, Repr

/-- The hydrated `models.PullRequest` returned by `GetPullRequest`. -/
structure PullRequest where
  pullRequestID : String
  pullRequestName : String
  authorID : String
  status : PullRequestStatus
  assignedReviewers : List String
  createdAt : Option Nat
  mergedAt : Option Nat
deriving DecidableEq, Repr

/-- The whole database: `teams`, `users`, `pull_requests` and
`pr_reviewers` (pairs `(pull_request_id, reviewer_id)`). -/
structure DBState where
  teams : List String
  users : List User
  prs : List PullRequestRow
  prReviewers : List (String × String)
deriving DecidableEq, Repr

instance {ε α : Type} [DecidableEq ε] [DecidableEq α] : DecidableEq (Except ε α) := fun a b =>
  match a, b with
  | .ok x, .ok y =>
      if h : x = y then .isTrue (by rw [h]) else .isFalse (by intro hc; cases hc; exact h rfl)
  | .ok _, .error _ => .isFalse (by intro hc; cases hc)
  | .error _, .ok _ => .isFalse (by intro hc; cases hc)
  | .error e, .error f =>
      if h : e = f then .isTrue (by rw [h]) else .isFalse (by intro hc; cases hc; exact h rfl)

/-! ### Error-string helpers (`IsErrorCode`, `GetErrorCode`, `GetErrorMessage`)

Errors flow through the Go code as `error` values whose message is the
string built by `fmt.Errorf("CODE: message")`; a `nil` error is `none`.
The helpers scan for the first `':'` (the Go loop `for i, r := range
errStr`); for the ASCII messages the service produces, byte indices and
code-point indices coincide, so the scan is embedded over `String.data`. -/

/-- Index of the first `':'` in a character list, as in the explicit
loops of `GetErrorCode` / `GetErrorMessage`. -/
def findColonIdx : List Char → Option Nat
  | [] => none
  | c :: rest => if c = ':' then some 0 else (findColonIdx rest).map (· + 1)

/-- `service.IsErrorCode`: `len(errStr) > len(code) && errStr[:len(code)] == code`. -/
def IsErrorCode (err : Option String) (code : String) : Bool :=
  match err with
  | none => false
  | some e => decide (code.data.length < e.data.length) && (e.data.take code.data.length == code.data)

/-- `service.GetErrorCode`: prefix before the first `':'`, or `""` when absent. -/
def GetErrorCode (err : Option String) : String :=
  match err with
  | none => ""
  | some e =>
    match findColonIdx e.data with
    | none => ""
    | some i => ⟨e.data.take i⟩

/-- `service.GetErrorMessage`: substring after `": "` when it exists,
the whole string when there is no colon, `""` otherwise. -/
def GetErrorMessage (err : Option String) : String :=
  match err with
  | none => ""
  | some e =>
    match findColonIdx e.data with
    | none => e
    | some i => if i + 2 < e.data.length then ⟨e.data.drop (i + 2)⟩ else ""

/-- How every typed service error message is constructed:
`fmt.Errorf("CODE: message")`. -/
def mkServiceError (code msg : String) : String :=
  ⟨code.data ++ ':' :: ' ' :: msg.data⟩

/-! ### `ORDER BY user_id`

Postgres orders the `VARCHAR` keys byte-wise (ASCII ids in this service),
embedded as insertion sort over code-point comparison. -/

/-- Code-point comparison of two character lists, `≤`. -/
def strLeData : List Char → List Char → Bool
  | [], _ => true
  | _ :: _, [] => false
  | a :: as, b :: bs =>
    if a.toNat < b.toNat then true
    else if b.toNat < a.toNat then false
    else strLeData as bs

/-- `s ≤ t` in the order `ORDER BY` uses. -/
def strLeb (s t : String) : Bool := strLeData s.data t.data

/-- Insert into a sorted list. -/
def insertSorted (x : String) : List String → List String
  | [] => [x]
  | y :: ys => if strLeb x y then x :: y :: ys else y :: insertSorted x ys

/-- Insertion sort realizing `ORDER BY user_id` / `ORDER BY reviewer_id`. -/
def sortStrings : List String → List String
  | [] => []
  | x :: xs => insertSorted x (sortStrings xs)

/-! ### Randomness

`rand.Shuffle` / `rand.Perm` are embedded as an injected permutation of
`List.range n` applied by indexing; `rand.Intn n` as an injected `k`
reduced `mod n`.  Theorems quantify over these injected values. -/

/-- Reorder `l` by a list of indices (the shuffle/Perm outcome). -/
def applyPerm (l : List String) (perm : List Nat) : List String :=
  perm.filterMap (fun i => l[i]?)

/-- `service.selectRandomReviewers`: empty pool gives `[]`; a pool of at
most `n` is shuffled whole; otherwise the first `n` positions of a random
permutation are taken. -/
def selectRandomReviewers (candidates : List String) (n : Nat) (perm : List Nat) : List String :=
  if candidates.length = 0 then []
  else if candidates.length ≤ n then applyPerm candidates perm
  else (applyPerm candidates perm).take n

/-! ### Row lookups (SQL `QueryRow` by primary key, `SELECT` by PR id) -/

/-- `SELECT reviewer_id FROM pr_reviewers WHERE pull_request_id = prID`
(unordered; `GetPullRequest` additionally sorts). -/
def prAssignments (st : DBState) (prID : String) : List String :=
  (st.prReviewers.filter (fun q => q.1 == prID)).map (fun q => q.2)

/-- `SELECT ... FROM users WHERE user_id = uid` (`user_id` is the primary key). -/
def findUser (users : List User) (uid : String) : Option User :=
  users.find? (fun u => u.userID == uid)

/-- `SELECT ... FROM pull_requests WHERE pull_request_id = prID`. -/
def findPR (prs : List PullRequestRow) (prID : String) : Option PullRequestRow :=
  prs.find? (fun p => p.prID == prID)

/-! ### Service operations -/

/-- The `models.PullRequest` value `GetPullRequest` builds from a row and
the reviewer query for `prID`. -/
def hydratePR (st : DBState) (prID : String) (p : PullRequestRow) : PullRequest :=
  { pullRequestID := p.prID, pullRequestName := p.prName, authorID := p.authorID,
    status := p.status, assignedReviewers := sortStrings (prAssignments st prID),
    createdAt := some p.createdAt, mergedAt := p.mergedAt }

/-- `service.GetPullRequest`: hydrates a PR with its reviewers in
ascending reviewer id order. -/
def GetPullRequest (st : DBState) (prID : String) : Except String PullRequest :=
  match findPR st.prs prID with
  | none => .error "NOT_FOUND: PR not found"
  | some p => .ok (hydratePR st prID p)

/-- The `INSERT ... ON CONFLICT (user_id) DO UPDATE SET username, team_name,
is_active` issued per member by `CreateTeam`. -/
def upsertUser (users : List User) (v : User) : List User :=
  if users.any (fun u => u.userID == v.userID) then
    users.map (fun u =>
      if u.userID == v.userID then
        { u with username := v.username, teamName := v.teamName, isActive := v.isActive }
      else u)
  else users ++ [v]

/-- The member loop of `CreateTeam`. -/
def createTeamLoop (teamName : String) (users : List User) : List TeamMember → List User
  | [] => users
  | m :: rest => createTeamLoop teamName (upsertUser users ⟨m.userID, m.username, teamName, m.isActive⟩) rest

/-- `service.CreateTeam`. -/
def CreateTeam (st : DBState) (team : Team) : Except String DBState :=
  if st.teams.contains team.teamName then
    .error "TEAM_EXISTS: team_name already exists"
  else
    .ok { st with teams := st.teams ++ [team.teamName],
                  users := createTeamLoop team.teamName st.users team.members }

/-- `service.SetUserActive`: `UPDATE users SET is_active WHERE user_id ...
RETURNING`, `NOT_FOUND` when no row matches. -/
def SetUserActive (st : DBState) (userID : String) (isActive : Bool) :
    Except String (DBState × User) :=
  match findUser st.users userID with
  | none => .error "NOT_FOUND: user not found"
  | some u =>
    .ok ({ st with users := st.users.map (fun v =>
            if v.userID == userID then { v with isActive := isActive } else v) },
         { u with isActive := isActive })

/-- The candidate query of `CreatePullRequest`: active users of the
author's team, author excluded, ordered by user id. -/
def candidatesForAuthor (users : List User) (teamName authorID : String) : List String :=
  sortStrings ((users.filter (fun u =>
      u.teamName == teamName && u.isActive && u.userID != authorID)).map (fun u => u.userID))

/-- `service.CreatePullRequest`. -/
def CreatePullRequest (st : DBState) (prID prName authorID : String) (now : Nat)
    (perm : List Nat) : Except String (DBState × PullRequest) :=
  if st.prs.any (fun p => p.prID == prID) then
    .error "PR_EXISTS: PR id already exists"
  else
    match findUser st.users authorID with
    | none => .error "NOT_FOUND: author not found"
    | some author =>
      let candidates := candidatesForAuthor st.users author.teamName authorID
      let reviewers := selectRandomReviewers candidates 2 perm
      let st' : DBState :=
        { st with prs := st.prs ++ [⟨prID, prName, authorID, .OPEN, now, none⟩],
                  prReviewers := st.prReviewers ++ reviewers.map (fun r => (prID, r)) }
      (GetPullRequest st' prID).map (fun p => (st', p))

/-- `service.MergePullRequest`. -/
def MergePullRequest (st : DBState) (prID : String) (now : Nat) :
    Except String (DBState × PullRequest) :=
  match findPR st.prs prID with
  | none => .error "NOT_FOUND: PR not found"
  | some p =>
    if p.status == .MERGED then
      (GetPullRequest st prID).map (fun pr => (st, pr))
    else
      let st' : DBState :=
        { st with prs := st.prs.map (fun q =>
            if q.prID == prID then { q with status := .MERGED, mergedAt := some now } else q) }
      (GetPullRequest st' prID).map (fun pr => (st', pr))

/-- The candidate query of `ReassignReviewer`: active users of the old
reviewer's team, excluding the old reviewer and (via the dynamically
built `AND user_id != $i` clauses) every other currently assigned
reviewer, ordered by user id.  This is the set the query denotes when its
parameter numbering is well-formed (see `reassignQueryWellFormed`). -/
def reassignCandidates (users : List User) (teamName oldUserID : String)
    (currentReviewers : List String) : List String :=
  sortStrings ((users.filter (fun u =>
      u.teamName == teamName && u.isActive && u.userID != oldUserID &&
      !((currentReviewers.filter (fun r => r != oldUserID)).contains u.userID))).map
    (fun u => u.userID))

/-- The loop building the candidate query numbers each added clause as
`$(i+3)` with `i` the scan index over ALL current reviewers, but appends an
argument only for reviewers different from the old one.  The referenced
parameters are the consecutive list `$3..$(2+args)` — i.e. the statement is
accepted by the database — iff no reviewer different from the old one is
scanned after an occurrence of the old one. -/
def reassignQueryWellFormed : List String → String → Bool
  | [], _ => true
  | r :: rest, oldUserID =>
    if r == oldUserID then rest.all (fun x => x == oldUserID)
    else reassignQueryWellFormed rest oldUserID

/-- When the candidate query references a parameter with no bound argument,
`tx.Query` fails with a generic driver error.  Its exact text comes from
Postgres, not this repository; it is modelled as a fixed representative
string, which — all that matters — carries none of the typed `CODE: `
prefixes. -/
def pqDriverError : String := "pq: could not determine data type of parameter"

/-- `service.ReassignReviewer`. -/
def ReassignReviewer (st : DBState) (prID oldUserID : String) (k : Nat) :
    Except String (DBState × PullRequest × String) :=
  match findPR st.prs prID with
  | none => .error "NOT_FOUND: PR not found"
  | some pr =>
    if pr.status == .MERGED then
      .error "PR_MERGED: cannot reassign on merged PR"
    else if !(st.prReviewers.any (fun q => q.1 == prID && q.2 == oldUserID)) then
      .error "NOT_ASSIGNED: reviewer is not assigned to this PR"
    else
      match findUser st.users oldUserID with
      | none => .error "NOT_FOUND: old reviewer not found"
      | some oldUser =>
        let currentReviewers := prAssignments st prID
        if !(reassignQueryWellFormed currentReviewers oldUserID) then
          .error pqDriverError
        else
        let candidates := reassignCandidates st.users oldUser.teamName oldUserID currentReviewers
        if h : candidates.length = 0 then
          .error "NO_CANDIDATE: no active replacement candidate in team"
        else
          let newReviewerID := candidates.get ⟨k % candidates.length, Nat.mod_lt _ (Nat.pos_of_ne_zero h)⟩
          let st' : DBState :=
            { st with prReviewers := st.prReviewers.map (fun q =>
                if q.1 == prID && q.2 == oldUserID then (prID, newReviewerID) else q) }
          (GetPullRequest st' prID).map (fun p => (st', p, newReviewerID))

/-- `UPDATE users SET is_active = false WHERE user_id = uid`. -/
def deactivateUserRow (users : List User) (uid : String) : List User :=
  users.map (fun u => if u.userID == uid then { u with isActive := false } else u)

/-- The per-user loop of `BulkDeactivateUsers`: skip unknown users and
users outside the team, deactivate the rest. -/
def bulkLoop (teamName : String) (users : List User) : List String → List User
  | [] => users
  | uid :: rest =>
    match findUser users uid with
    | none => bulkLoop teamName users rest
    | some u =>
      if u.teamName != teamName then bulkLoop teamName users rest
      else bulkLoop teamName (deactivateUserRow users uid) rest

/-- `service.BulkDeactivateUsers`. -/
def BulkDeactivateUsers (st : DBState) (teamName : String) (userIDs : List String) :
    Except String DBState :=
  if !(st.teams.contains teamName) then .error "NOT_FOUND: team not found"
  else .ok { st with users := bulkLoop teamName st.users userIDs }

/-- The `SELECT DISTINCT` of `SafeReassignOpenPRs`: assignment pairs of
open PRs whose reviewer is among `ids` and inactive (`DISTINCT` embedded
as `dedup`; the joined `team_name` column is determined by the reviewer
and dropped, since `ReassignReviewer` receives only the pair). -/
def toReassign (st : DBState) (ids : List String) : List (String × String) :=
  (st.prReviewers.filter (fun q =>
      (st.prs.any (fun p => p.prID == q.1 && p.status == .OPEN)) &&
      ids.contains q.2 &&
      (st.users.any (fun u => u.userID == q.2 && u.isActive == false)))).dedup

/-- The reassignment loop of `SafeReassignOpenPRs`: one `ReassignReviewer`
per pair on the evolving state, failures ignored, successes counted. -/
def reassignLoop (st : DBState) (pairs : List (String × String)) (ks : Nat → Nat) (i : Nat) :
    DBState × Nat :=
  match pairs with
  | [] => (st, 0)
  | p :: rest =>
    match ReassignReviewer st p.1 p.2 (ks i) with
    | .ok r =>
      let res := reassignLoop r.1 rest ks (i + 1)
      (res.1, res.2 + 1)
    | .error _ => reassignLoop st rest ks (i + 1)

/-- `service.SafeReassignOpenPRs`. -/
def SafeReassignOpenPRs (st : DBState) (deactivatedUserIDs : List String) (ks : Nat → Nat) :
    DBState × Nat :=
  if deactivatedUserIDs.length = 0 then (st, 0)
  else reassignLoop st (toReassign st deactivatedUserIDs) ks 0

/-- Per-pair outcome trace of the reassignment loop (`true` = that
attempt succeeded), used to state what the returned count counts. -/
def reassignTrace (st : DBState) (pairs : List (String × String)) (ks : Nat → Nat) (i : Nat) :
    List Bool :=
  match pairs with
  | [] => []
  | p :: rest =>
    match ReassignReviewer st p.1 p.2 (ks i) with
    | .ok r => true :: reassignTrace r.1 rest ks (i + 1)
    | .error _ => false :: reassignTrace st rest ks (i + 1)

/-! ### Well-formedness of a database state (primary keys, foreign keys) -/

/-- `user_id` is the primary key of `users`. -/
def UsersNodup (st : DBState) : Prop := (st.users.map (fun u => u.userID)).Nodup

/-- `pull_request_id` is the primary key of `pull_requests`. -/
def PRsNodup (st : DBState) : Prop := (st.prs.map (fun p => p.prID)).Nodup

/-- `(pull_request_id, reviewer_id)` is the primary key of `pr_reviewers`. -/
def PairsNodup (st : DBState) : Prop := st.prReviewers.Nodup

/-- The `pr_reviewers.pull_request_id REFERENCES pull_requests` foreign key. -/
def PairsFK (st : DBState) : Prop :=
  ∀ q ∈ st.prReviewers, st.prs.any (fun p => p.prID == q.1) = true

/-- Invariant: no assignment's reviewer equals the PR's author. -/
def NoAuthorInv (st : DBState) : Prop :=
  ∀ pr ∈ st.prs, pr.authorID ∉ prAssignments st pr.prID

/-- Invariant: no PR's assignment set contains duplicate reviewers. -/
def NodupInv (st : DBState) : Prop :=
  ∀ pr ∈ st.prs, (prAssignments st pr.prID).Nodup

lemma findColonIdx_no_colon {l : List Char} (h : ':' ∉ l) : findColonIdx l = none := by
  induction l with
  | nil => rfl
  | cons c rest ih =>
    have hc : c ≠ ':' := fun hc => h (hc ▸ List.mem_cons_self c rest)
    have hrest : ':' ∉ rest := fun hm => h (List.mem_cons_of_mem c hm)
    simp [findColonIdx, hc, ih hrest]

lemma findColonIdx_append {code msg : List Char} (h : ':' ∉ code) :
    findColonIdx (code ++ ':' :: msg) = some code.length := by
  induction code with
  | nil => simp [findColonIdx]
  | cons c rest ih =>
    have hc : c ≠ ':' := fun hc => h (hc ▸ List.mem_cons_self c rest)
    have hrest : ':' ∉ rest := fun hm => h (List.mem_cons_of_mem c hm)
    simp [findColonIdx, hc, ih hrest]

lemma mkServiceError_data (code msg : String) :
    (mkServiceError code msg).data = code.data ++ ':' :: ' ' :: msg.data := rfl

/-- **C10.** For every error whose message has the form `"CODE: message"` (as
every typed service error is constructed by `fmt.Errorf`), `GetErrorCode`
returns exactly `CODE` and `GetErrorMessage` returns exactly `message`;
`IsErrorCode(err, c)` holds iff the error string is longer than `c` and starts
with `c`; and for a `nil` error the helpers return `""`, `""` and `false`. -/
theorem errorHelpers_spec :
    (∀ code msg : String, ':' ∉ code.data →
      GetErrorCode (some (mkServiceError code msg)) = code ∧
      GetErrorMessage (some (mkServiceError code msg)) = msg) ∧
    (∀ e c : String, IsErrorCode (some e) c = true ↔
      c.data.length < e.data.length ∧ e.data.take c.data.length = c.data) ∧
    GetErrorCode none = "" ∧ GetErrorMessage none = "" ∧
    (∀ c, IsErrorCode none c = false) := by
  refine ⟨?_, ?_, rfl, rfl, fun _ => rfl⟩
  · intro code msg h
    have hidx : findColonIdx (mkServiceError code msg).data = some code.data.length := by
      rw [mkServiceError_data]
      exact findColonIdx_append h
    constructor
    · show GetErrorCode (some (mkServiceError code msg)) = code
      simp only [GetErrorCode, hidx]
      rw [mkServiceError_data, List.take_left]
    · show GetErrorMessage (some (mkServiceError code msg)) = msg
      simp only [GetErrorMessage, hidx]
      have hlen : (mkServiceError code msg).data.length
          = code.data.length + 2 + msg.data.length := by
        rw [mkServiceError_data]; simp; omega
      cases hm : msg.data with
      | nil =>
        have : ¬ (code.data.length + 2 < (mkServiceError code msg).data.length) := by
          rw [hlen, hm]; simp
        rw [if_neg this]
        cases msg with
        | mk d => cases hm; rfl
      | cons c₀ rest =>
        have hpos : code.data.length + 2 < (mkServiceError code msg).data.length := by
          rw [hlen, hm]; simp
        rw [if_pos hpos]
        have hsplit : (mkServiceError code msg).data
            = (code.data ++ [':', ' ']) ++ msg.data := by
          rw [mkServiceError_data]; simp
        have hdrop : (mkServiceError code msg).data.drop (code.data.length + 2) = msg.data := by
          rw [hsplit]
          have h2 : code.data.length + 2 = (code.data ++ [':', ' ']).length := by simp
          rw [h2, List.drop_left]
        rw [hdrop]
  · intro e c
    simp only [IsErrorCode, Bool.and_eq_true, decide_eq_true_eq, beq_iff_eq]

/-! ### Generic list lemmas for the embedding -/

lemma find?_map_eq {α : Type} (f : α → α) (p : α → Bool) (h : ∀ a, p (f a) = p a)
    (l : List α) : (l.map f).find? p = (l.find? p).map f := by
  have hpf : p ∘ f = p := funext h
  rw [List.find?_map, hpf]

lemma filter_map_comm {α : Type} (f : α → α) (p : α → Bool) (h : ∀ a, p (f a) = p a)
    (l : List α) : (l.map f).filter p = (l.filter p).map f := by
  rw [List.filter_map]
  congr 1
  exact List.filter_congr (fun a _ => h a)

lemma insertSorted_perm (x : String) (l : List String) :
    (insertSorted x l).Perm (x :: l) := by
  induction l with
  | nil => exact List.Perm.refl _
  | cons y ys ih =>
    rw [insertSorted]
    by_cases h : strLeb x y = true
    · rw [if_pos h]
    · rw [if_neg h]
      exact (ih.cons y).trans (List.Perm.swap x y ys)

lemma sortStrings_perm (l : List String) : (sortStrings l).Perm l := by
  induction l with
  | nil => exact List.Perm.refl _
  | cons x xs ih =>
    rw [sortStrings]
    exact (insertSorted_perm x (sortStrings xs)).trans (ih.cons x)

lemma filterMap_getElem_range {α : Type} (l : List α) :
    (List.range l.length).filterMap (fun i => l[i]?) = l := by
  induction l with
  | nil => rfl
  | cons a rest ih =>
    have : (rest.map (fun x => some x)).length = rest.length + 1 - 1 := by simp
    rw [List.length_cons, List.range_succ_eq_map, List.filterMap_cons]
    simp only [List.getElem?_cons_zero, List.filterMap_map]
    have heq : ((fun i => (a :: rest)[i]?) ∘ Nat.succ) = fun i => rest[i]? := by
      funext i
      simp
    rw [heq, ih]

lemma applyPerm_perm {l : List String} {perm : List Nat}
    (h : perm.Perm (List.range l.length)) : (applyPerm l perm).Perm l := by
  have h1 : (applyPerm l perm).Perm ((List.range l.length).filterMap (fun i => l[i]?)) :=
    List.Perm.filterMap _ h
  rw [filterMap_getElem_range] at h1
  exact h1

/-- Behaviour of the reviewer sampler for any value of the injected
permutation: size `min n |pool|`, no duplicates (for a duplicate-free
pool), candidates only. -/
lemma selectRandomReviewers_spec {candidates : List String} {n : Nat} {perm : List Nat}
    (hperm : perm.Perm (List.range candidates.length)) (hnd : candidates.Nodup) :
    (selectRandomReviewers candidates n perm).length = min n candidates.length ∧
    (selectRandomReviewers candidates n perm).Nodup ∧
    (selectRandomReviewers candidates n perm) ⊆ candidates := by
  have hap := applyPerm_perm hperm
  rw [selectRandomReviewers]
  by_cases h0 : candidates.length = 0
  · rw [if_pos h0, h0]
    simp
  · rw [if_neg h0]
    by_cases hle : candidates.length ≤ n
    · rw [if_pos hle]
      exact ⟨by rw [hap.length_eq, Nat.min_eq_right hle], hap.nodup_iff.mpr hnd, hap.subset⟩
    · rw [if_neg hle]
      refine ⟨?_, ?_, ?_⟩
      · rw [List.length_take, hap.length_eq]
      · exact (List.take_sublist n _).nodup (hap.nodup_iff.mpr hnd)
      · exact fun x hx => hap.subset (List.take_subset n _ hx)

/-- Witness for `errorHelpers_spec`, at the `TEAM_EXISTS` error literally built
by `CreateTeam`. -/
theorem errorHelpers_spec_witness :
    mkServiceError "TEAM_EXISTS" "team_name already exists"
        = "TEAM_EXISTS: team_name already exists" ∧
    GetErrorCode (some (mkServiceError "TEAM_EXISTS" "team_name already exists"))
        = "TEAM_EXISTS" ∧
    GetErrorMessage (some (mkServiceError "TEAM_EXISTS" "team_name already exists"))
        = "team_name already exists" :=
  ⟨by decide, errorHelpers_spec.1 "TEAM_EXISTS" "team_name already exists" (by decide)⟩

lemma getPullRequest_ok {st : DBState} {prID : String} {p : PullRequestRow}
    (h : findPR st.prs prID = some p) :
    GetPullRequest st prID = .ok (hydratePR st prID p) := by
  simp only [GetPullRequest, h]

/-- **C3.** `MergePullRequest` is idempotent: for every existing PR both calls
succeed, both return status `MERGED`, the merge timestamp is set exactly once
(to the clock value of the first call when the PR was `OPEN`), and the second
call returns exactly the state and hydrated PR of the first. -/
theorem mergePullRequest_idempotent (st : DBState) (prID : String) (now1 now2 : Nat)
    (pr : PullRequestRow) (hfind : findPR st.prs prID = some pr) :
    ∃ st1 r1, MergePullRequest st prID now1 = .ok (st1, r1) ∧
      r1.status = .MERGED ∧
      MergePullRequest st1 prID now2 = .ok (st1, r1) ∧
      (pr.status = .OPEN → r1.mergedAt = some now1) ∧
      (pr.status = .MERGED → st1 = st ∧ r1.mergedAt = pr.mergedAt) := by
  cases hst : pr.status with
  | MERGED =>
    have hget := getPullRequest_ok hfind
    have hrun : MergePullRequest st prID now2 = (GetPullRequest st prID).map (fun pr => (st, pr))
        ∧ MergePullRequest st prID now1 = (GetPullRequest st prID).map (fun pr => (st, pr)) := by
      constructor <;>
        (simp only [MergePullRequest, hfind, hst]; rw [if_pos (by rfl)])
    refine ⟨st, hydratePR st prID pr, ?_, hst, ?_, ?_, fun _ => ⟨rfl, rfl⟩⟩
    · rw [hrun.2, hget]
      rfl
    · rw [hrun.1, hget]
      rfl
    · intro h
      exact absurd h (by decide)
  | OPEN =>
    have hpred : (pr.prID == prID) = true := by
      have h2 := hfind
      unfold findPR at h2
      exact List.find?_some (p := fun q : PullRequestRow => q.prID == prID) h2
    have hpres : ∀ a : PullRequestRow,
        ((if a.prID == prID then { a with status := .MERGED, mergedAt := some now1 } else a).prID
          == prID) = (a.prID == prID) := by
      intro a
      by_cases h : (a.prID == prID) = true <;> simp [h]
    have hfind1 : findPR (st.prs.map (fun q =>
        if q.prID == prID then { q with status := .MERGED, mergedAt := some now1 } else q)) prID
        = some { pr with status := .MERGED, mergedAt := some now1 } := by
      unfold findPR
      rw [find?_map_eq _ _ hpres]
      unfold findPR at hfind
      rw [hfind]
      simp only [Option.map_some']
      rw [if_pos hpred]
    have hget1 := @getPullRequest_ok { st with prs := st.prs.map (fun q =>
        if q.prID == prID then { q with status := .MERGED, mergedAt := some now1 } else q) }
      prID _ hfind1
    refine ⟨{ st with prs := st.prs.map (fun q : PullRequestRow =>
        if q.prID == prID then { q with status := .MERGED, mergedAt := some now1 } else q) },
      hydratePR { st with prs := st.prs.map (fun q : PullRequestRow =>
          if q.prID == prID then { q with status := .MERGED, mergedAt := some now1 } else q) }
        prID { pr with status := .MERGED, mergedAt := some now1 },
      ?_, rfl, ?_, fun _ => rfl, ?_⟩
    · simp only [MergePullRequest, hfind, hst]
      rw [if_neg (by simp), hget1]
      rfl
    · simp only [MergePullRequest, hfind1]
      rw [if_pos (by rfl), hget1]
      rfl
    · intro h
      exact absurd h (by decide)

/-- Witness for `mergePullRequest_idempotent` at a one-PR state. -/
theorem mergePullRequest_idempotent_witness :
    ∃ st1 r1, MergePullRequest
        { teams := ["backend"],
          users := [⟨"u1", "Alice", "backend", true⟩],
          prs := [⟨"pr-1", "Test PR", "u1", .OPEN, 5, none⟩],
          prReviewers := [] } "pr-1" 9 = .ok (st1, r1) ∧
      r1.status = .MERGED ∧
      MergePullRequest st1 "pr-1" 12 = .ok (st1, r1) ∧
      ((⟨"pr-1", "Test PR", "u1", .OPEN, 5, none⟩ : PullRequestRow).status = .OPEN →
        r1.mergedAt = some 9) ∧
      ((⟨"pr-1", "Test PR", "u1", .OPEN, 5, none⟩ : PullRequestRow).status = .MERGED →
        st1 = { teams := ["backend"],
                users := [⟨"u1", "Alice", "backend", true⟩],
                prs := [⟨"pr-1", "Test PR", "u1", .OPEN, 5, none⟩],
                prReviewers := [] } ∧
        r1.mergedAt = (⟨"pr-1", "Test PR", "u1", .OPEN, 5, none⟩ : PullRequestRow).mergedAt) :=
  mergePullRequest_idempotent
    { teams := ["backend"],
      users := [⟨"u1", "Alice", "backend", true⟩],
      prs := [⟨"pr-1", "Test PR", "u1", .OPEN, 5, none⟩],
      prReviewers := [] } "pr-1" 9 12 ⟨"pr-1", "Test PR", "u1", .OPEN, 5, none⟩ (by decide)

/-- **C4.** On a `MERGED` PR, `ReassignReviewer` fails with `PR_MERGED` for
every reviewer id and every random draw; the error result models the rolled
back transaction, so no state (in particular no assignment) is changed. -/
theorem reassign_merged_fails (st : DBState) (prID : String) (pr : PullRequestRow)
    (hfind : findPR st.prs prID = some pr) (hst : pr.status = .MERGED)
    (old : String) (k : Nat) :
    ReassignReviewer st prID old k = .error "PR_MERGED: cannot reassign on merged PR" := by
  simp only [ReassignReviewer, hfind, hst]
  rw [if_pos (by rfl)]

/-- Witness for `reassign_merged_fails` at a merged one-PR state. -/
theorem reassign_merged_fails_witness :
    ReassignReviewer
      { teams := ["backend"],
        users := [⟨"u1", "Alice", "backend", true⟩, ⟨"u2", "Bob", "backend", true⟩],
        prs := [⟨"pr-1", "Test PR", "u1", .MERGED, 5, some 9⟩],
        prReviewers := [("pr-1", "u2")] } "pr-1" "u2" 0
      = .error "PR_MERGED: cannot reassign on merged PR" :=
  reassign_merged_fails
    { teams := ["backend"],
      users := [⟨"u1", "Alice", "backend", true⟩, ⟨"u2", "Bob", "backend", true⟩],
      prs := [⟨"pr-1", "Test PR", "u1", .MERGED, 5, some 9⟩],
      prReviewers := [("pr-1", "u2")] } "pr-1"
    ⟨"pr-1", "Test PR", "u1", .MERGED, 5, some 9⟩ (by decide) (by decide) "u2" 0

/-- **C5 (code bug).** The claimed typed-error taxonomy is the spec's intent,
but the code breaks it: the candidate-query loop numbers its placeholders
`i+3` over ALL current reviewers while binding arguments only for those
different from the old reviewer, so whenever another reviewer is scanned
after the old one the statement references an unbound parameter and the call
fails with a generic driver error.  At the failing input below the PR exists
and is `OPEN`, `u2` is assigned and resolves to a user, and the candidate
pool the query means to compute is the non-empty `["u1"]` — the claim demands
success or one of the five typed errors, yet the call returns the driver
error, which carries none of the typed codes. -/
theorem reassign_param_bug :
    ReassignReviewer
        { teams := ["backend"],
          users := [⟨"u1", "Alice", "backend", true⟩, ⟨"u2", "Bob", "backend", true⟩,
                    ⟨"u3", "Charlie", "backend", true⟩],
          prs := [⟨"pr-1", "Test PR", "u1", .OPEN, 5, none⟩],
          prReviewers := [("pr-1", "u2"), ("pr-1", "u3")] } "pr-1" "u2" 0
      = .error pqDriverError ∧
    reassignCandidates
        [⟨"u1", "Alice", "backend", true⟩, ⟨"u2", "Bob", "backend", true⟩,
         ⟨"u3", "Charlie", "backend", true⟩] "backend" "u2"
        (prAssignments
          { teams := ["backend"],
            users := [⟨"u1", "Alice", "backend", true⟩, ⟨"u2", "Bob", "backend", true⟩,
                      ⟨"u3", "Charlie", "backend", true⟩],
            prs := [⟨"pr-1", "Test PR", "u1", .OPEN, 5, none⟩],
            prReviewers := [("pr-1", "u2"), ("pr-1", "u3")] } "pr-1") = ["u1"] ∧
    IsErrorCode (some pqDriverError) "NOT_FOUND" = false ∧
    IsErrorCode (some pqDriverError) "PR_MERGED" = false ∧
    IsErrorCode (some pqDriverError) "NOT_ASSIGNED" = false ∧
    IsErrorCode (some pqDriverError) "NO_CANDIDATE" = false := by
  refine ⟨by decide, by decide, by decide, by decide, by decide, by decide⟩

lemma mem_reassignCandidates {users : List User} {team old : String} {current : List String}
    {r : String} (h : r ∈ reassignCandidates users team old current) :
    ∃ u ∈ users, u.userID = r ∧ u.teamName = team ∧ u.isActive = true ∧ r ≠ old ∧
      r ∉ current := by
  unfold reassignCandidates at h
  rw [(sortStrings_perm _).mem_iff] at h
  obtain ⟨u, hu, huid⟩ := List.mem_map.mp h
  rw [List.mem_filter] at hu
  obtain ⟨humem, hcond⟩ := hu
  simp only [Bool.and_eq_true, beq_iff_eq, bne_iff_ne, Bool.not_eq_true'] at hcond
  obtain ⟨⟨⟨hteam, hact⟩, hne⟩, hnc⟩ := hcond
  subst huid
  refine ⟨u, humem, rfl, hteam, hact, hne, ?_⟩
  intro hmem
  have hinf : u.userID ∈ current.filter (fun r => r != old) := by
    rw [List.mem_filter]
    exact ⟨hmem, by simpa using hne⟩
  rw [List.contains_eq_any_beq] at hnc
  have : ∃ x ∈ current.filter (fun r => r != old), (u.userID == x) = true :=
    ⟨u.userID, hinf, by simp⟩
  rw [← List.any_eq_true] at this
  rw [this] at hnc
  cases hnc

lemma pair_fst_pres (prID old nw : String) :
    ∀ q : String × String,
      ((if q.1 == prID && q.2 == old then (prID, nw) else q).1 == prID) = (q.1 == prID) := by
  intro q
  by_cases hc : (q.1 == prID && q.2 == old) = true
  · have h1 := (Bool.and_eq_true _ _).mp hc
    rw [if_pos hc]
    simp [h1.1]
  · rw [if_neg hc]

lemma prAssignments_after_replace (st : DBState) (prID old nw : String) :
    prAssignments { st with prReviewers := st.prReviewers.map (fun q =>
        if q.1 == prID && q.2 == old then (prID, nw) else q) } prID
      = (prAssignments st prID).map (fun r => if r == old then nw else r) := by
  show ((st.prReviewers.map (fun q =>
      if q.1 == prID && q.2 == old then (prID, nw) else q)).filter
        (fun q => q.1 == prID)).map (fun q => q.2) = _
  rw [filter_map_comm _ _ (pair_fst_pres prID old nw)]
  unfold prAssignments
  rw [List.map_map, List.map_map]
  apply List.map_congr_left
  intro q hq
  rw [List.mem_filter] at hq
  by_cases h2 : (q.2 == old) = true
  · have hq1 : q.1 = prID := by
      have h3 := hq.2
      rwa [beq_iff_eq] at h3
    have h2e : q.2 = old := by rwa [beq_iff_eq] at h2
    simp [Function.comp, hq1, h2e]
  · have h2f : (q.2 == old) = false := Bool.eq_false_iff.mpr h2
    have hcond : (q.1 == prID && q.2 == old) = false := by
      rw [h2f]
      exact Bool.and_false _
    simp only [Function.comp_apply]
    rw [hcond, h2f]
    simp

lemma prAssignments_replace_length (st : DBState) (prID old nw : String) (q0 : String) :
    (prAssignments { st with prReviewers := st.prReviewers.map (fun q =>
        if q.1 == prID && q.2 == old then (prID, nw) else q) } q0).length
      = (prAssignments st q0).length := by
  have hf : ∀ q : String × String,
      ((if q.1 == prID && q.2 == old then (prID, nw) else q).1 == q0) = (q.1 == q0) := by
    intro q
    by_cases hc : (q.1 == prID && q.2 == old) = true
    · have h1 := (Bool.and_eq_true _ _).mp hc
      rw [if_pos hc]
      have : q.1 = prID := by
        have := h1.1
        rwa [beq_iff_eq] at this
      rw [this]
    · rw [if_neg hc]
  show (((st.prReviewers.map (fun q =>
      if q.1 == prID && q.2 == old then (prID, nw) else q)).filter
        (fun q => q.1 == q0)).map (fun q => q.2)).length
    = (((st.prReviewers.filter (fun q => q.1 == q0))).map (fun q => q.2)).length
  rw [filter_map_comm _ _ hf, List.map_map, List.length_map, List.length_map]

lemma prAssignments_replace_other (st : DBState) (prID old nw : String) (q0 : String)
    (hq0 : q0 ≠ prID) :
    prAssignments { st with prReviewers := st.prReviewers.map (fun q =>
        if q.1 == prID && q.2 == old then (prID, nw) else q) } q0
      = prAssignments st q0 := by
  have hf : ∀ q : String × String,
      ((if q.1 == prID && q.2 == old then (prID, nw) else q).1 == q0) = (q.1 == q0) := by
    intro q
    by_cases hc : (q.1 == prID && q.2 == old) = true
    · have h1 := (Bool.and_eq_true _ _).mp hc
      rw [if_pos hc]
      have : q.1 = prID := by
        have := h1.1
        rwa [beq_iff_eq] at this
      rw [this]
    · rw [if_neg hc]
  show ((st.prReviewers.map (fun q =>
      if q.1 == prID && q.2 == old then (prID, nw) else q)).filter
        (fun q => q.1 == q0)).map (fun q => q.2)
    = (st.prReviewers.filter (fun q => q.1 == q0)).map (fun q => q.2)
  rw [filter_map_comm _ _ hf, List.map_map]
  apply List.map_congr_left
  intro q hq
  rw [List.mem_filter] at hq
  have h1 : q.1 = q0 := by
    have := hq.2
    rwa [beq_iff_eq] at this
  have hcond : (q.1 == prID && q.2 == old) = false := by
    have : (q.1 == prID) = false := by
      rw [h1]
      exact beq_eq_false_iff_ne.mpr hq0
    rw [this]
    rfl
  simp only [Function.comp_apply, hcond, Bool.false_eq_true, if_false]

/-- Inversion of a successful `ReassignReviewer`: which checks passed and
what the new state is. -/
lemma reassign_ok_inversion {st : DBState} {prID old : String} {k : Nat}
    {st' : DBState} {hyd : PullRequest} {nw : String}
    (h : ReassignReviewer st prID old k = .ok (st', hyd, nw)) :
    ∃ pr oldUser, findPR st.prs prID = some pr ∧
      (pr.status == PullRequestStatus.MERGED) = false ∧
      (st.prReviewers.any fun q => q.1 == prID && q.2 == old) = true ∧
      findUser st.users old = some oldUser ∧
      nw ∈ reassignCandidates st.users oldUser.teamName old (prAssignments st prID) ∧
      st'.teams = st.teams ∧ st'.users = st.users ∧ st'.prs = st.prs ∧
      st'.prReviewers = st.prReviewers.map (fun q =>
        if q.1 == prID && q.2 == old then (prID, nw) else q) := by
  cases hfind : findPR st.prs prID with
  | none =>
    simp only [ReassignReviewer, hfind] at h
    exact Except.noConfusion h
  | some pr =>
    simp only [ReassignReviewer, hfind] at h
    by_cases hm : (pr.status == PullRequestStatus.MERGED) = true
    · rw [if_pos hm] at h
      cases h
    · rw [if_neg hm] at h
      by_cases ha : (st.prReviewers.any fun q => q.1 == prID && q.2 == old) = true
      · rw [if_neg (by rw [ha]; exact fun hc => by cases hc)] at h
        cases hfu : findUser st.users old with
        | none =>
          simp only [hfu] at h
          exact Except.noConfusion h
        | some oldUser =>
          simp only [hfu] at h
          by_cases hwf : (reassignQueryWellFormed (prAssignments st prID) old) = true
          case neg =>
            rw [if_pos (by rw [Bool.eq_false_iff.mpr hwf]; rfl)] at h
            exact Except.noConfusion h
          rw [if_neg (by rw [hwf]; exact fun hc => by cases hc)] at h
          by_cases hc : (reassignCandidates st.users oldUser.teamName old
              (prAssignments st prID)).length = 0
          · rw [dif_pos hc] at h
            cases h
          · rw [dif_neg hc] at h
            have hfind2 : findPR ({ st with prReviewers := st.prReviewers.map (fun q : String × String =>
                if q.1 == prID && q.2 == old
                then (prID, (reassignCandidates st.users oldUser.teamName old
                    (prAssignments st prID)).get
                  ⟨k % (reassignCandidates st.users oldUser.teamName old
                      (prAssignments st prID)).length, Nat.mod_lt _ (Nat.pos_of_ne_zero hc)⟩)
                else q) }).prs prID = some pr := hfind
            rw [getPullRequest_ok hfind2] at h
            simp only [Except.map] at h
            cases h
            refine ⟨pr, oldUser, rfl, Bool.eq_false_iff.mpr hm, ha, rfl, ?_, rfl, rfl, rfl, rfl⟩
            exact List.get_mem _ _ _
      · rw [if_pos (by rw [Bool.eq_false_iff.mpr ha]; rfl)] at h
        exact Except.noConfusion h

/-- **C2.** A successful `ReassignReviewer(prID, old)` returns a new reviewer
different from `old`, not in the pre-call assignment set, who is an active
member of the old reviewer's team; the post-call assignment set has the same
size and is the pre-call set with `old` replaced by the new reviewer. -/
theorem reassign_success_spec (st : DBState) (prID old : String) (k : Nat)
    (st' : DBState) (hyd : PullRequest) (nw : String)
    (h : ReassignReviewer st prID old k = .ok (st', hyd, nw)) :
    nw ≠ old ∧
    nw ∉ prAssignments st prID ∧
    (∃ oldUser, findUser st.users old = some oldUser ∧
      ∃ u ∈ st.users, u.userID = nw ∧ u.teamName = oldUser.teamName ∧ u.isActive = true) ∧
    (prAssignments st' prID).length = (prAssignments st prID).length ∧
    nw ∈ prAssignments st' prID ∧
    old ∉ prAssignments st' prID ∧
    (∀ r, r ≠ old → r ≠ nw → (r ∈ prAssignments st' prID ↔ r ∈ prAssignments st prID)) := by
  obtain ⟨pr, oldUser, hfind, hm, ha, hfu, hnw, hteams, husers, hprs, hpairs⟩ :=
    reassign_ok_inversion h
  obtain ⟨u, humem, huid, hteam, hact, hne, hnotin⟩ := mem_reassignCandidates hnw
  have hstcast : st' = { st with prReviewers := st.prReviewers.map (fun q =>
      if q.1 == prID && q.2 == old then (prID, nw) else q) } := by
    cases st' with
    | mk t u p r =>
      cases st with
      | mk t2 u2 p2 r2 =>
        simp only at hteams husers hprs hpairs
        rw [hteams, husers, hprs, hpairs]
  have hA : prAssignments st' prID
      = (prAssignments st prID).map (fun r => if r == old then nw else r) := by
    rw [hstcast]
    exact prAssignments_after_replace st prID old nw
  have holdmem : old ∈ prAssignments st prID := by
    rw [List.any_eq_true] at ha
    obtain ⟨q, hq, hcond⟩ := ha
    have h12 := (Bool.and_eq_true _ _).mp hcond
    have hq1 : q.1 = prID := by
      have := h12.1
      rwa [beq_iff_eq] at this
    have hq2 : q.2 = old := by
      have := h12.2
      rwa [beq_iff_eq] at this
    unfold prAssignments
    rw [List.mem_map]
    exact ⟨q, List.mem_filter.mpr ⟨hq, by rw [hq1]; exact beq_self_eq_true prID⟩, hq2⟩
  refine ⟨hne, hnotin, ⟨oldUser, hfu, u, humem, huid, hteam, hact⟩, ?_, ?_, ?_, ?_⟩
  · rw [hstcast]
    exact prAssignments_replace_length st prID old nw prID
  · rw [hA, List.mem_map]
    exact ⟨old, holdmem, by rw [if_pos (beq_self_eq_true old)]⟩
  · rw [hA, List.mem_map]
    rintro ⟨r, hr, hrel⟩
    by_cases hro : (r == old) = true
    · rw [if_pos hro] at hrel
      exact hne hrel
    · rw [if_neg hro] at hrel
      have hne2 : r ≠ old := fun he => hro (by rw [he]; exact beq_self_eq_true old)
      exact hne2 hrel
  · intro r hro hrn
    rw [hA, List.mem_map]
    constructor
    · rintro ⟨s, hs, hrel⟩
      by_cases hso : (s == old) = true
      · rw [if_pos hso] at hrel
        exact absurd hrel.symm hrn
      · rw [if_neg hso] at hrel
        rw [hrel] at hs
        exact hs
    · intro hr
      refine ⟨r, hr, ?_⟩
      rw [if_neg (fun hc => hro (by rwa [beq_iff_eq] at hc))]

/-- Witness for `reassign_success_spec`: the spec scenario team of three,
PR by `u1` reviewed by `u2`,`u3`, reassigning `u2`. -/
theorem reassign_success_spec_witness :
    ∃ st' hyd nw, ReassignReviewer
        { teams := ["backend"],
          users := [⟨"u1", "Alice", "backend", true⟩, ⟨"u2", "Bob", "backend", true⟩,
                    ⟨"u3", "Charlie", "backend", true⟩],
          prs := [⟨"pr-1", "Test PR", "u1", .OPEN, 5, none⟩],
          prReviewers := [("pr-1", "u3"), ("pr-1", "u2")] } "pr-1" "u2" 0 = .ok (st', hyd, nw)
      ∧ nw ≠ "u2"
      ∧ nw ∉ prAssignments
          { teams := ["backend"],
            users := [⟨"u1", "Alice", "backend", true⟩, ⟨"u2", "Bob", "backend", true⟩,
                      ⟨"u3", "Charlie", "backend", true⟩],
            prs := [⟨"pr-1", "Test PR", "u1", .OPEN, 5, none⟩],
            prReviewers := [("pr-1", "u3"), ("pr-1", "u2")] } "pr-1" := by
  have h : ReassignReviewer
      { teams := ["backend"],
        users := [⟨"u1", "Alice", "backend", true⟩, ⟨"u2", "Bob", "backend", true⟩,
                  ⟨"u3", "Charlie", "backend", true⟩],
        prs := [⟨"pr-1", "Test PR", "u1", .OPEN, 5, none⟩],
        prReviewers := [("pr-1", "u3"), ("pr-1", "u2")] } "pr-1" "u2" 0
      = .ok ({ teams := ["backend"],
               users := [⟨"u1", "Alice", "backend", true⟩, ⟨"u2", "Bob", "backend", true⟩,
                         ⟨"u3", "Charlie", "backend", true⟩],
               prs := [⟨"pr-1", "Test PR", "u1", .OPEN, 5, none⟩],
               prReviewers := [("pr-1", "u3"), ("pr-1", "u1")] },
             ⟨"pr-1", "Test PR", "u1", .OPEN, ["u1", "u3"], some 5, none⟩, "u1") := by decide
  have hs := reassign_success_spec _ "pr-1" "u2" 0 _ _ _ h
  exact ⟨_, _, _, h, hs.1, hs.2.1⟩

lemma findUser_upsert (users : List User) (v : User) (uid : String) :
    findUser (upsertUser users v) uid
      = if v.userID = uid then some v else findUser users uid := by
  unfold upsertUser
  by_cases hex : (users.any fun u => u.userID == v.userID) = true
  · rw [if_pos hex]
    have hpres : ∀ u : User,
        ((if u.userID == v.userID then
            { u with username := v.username, teamName := v.teamName, isActive := v.isActive }
          else u).userID == uid) = (u.userID == uid) := by
      intro u
      by_cases h : (u.userID == v.userID) = true
      · rw [if_pos h]
      · rw [if_neg h]
    unfold findUser
    rw [find?_map_eq _ _ hpres]
    by_cases hv : v.userID = uid
    · rw [if_pos hv]
      subst hv
      cases hfind : users.find? (fun u => u.userID == v.userID) with
      | none =>
        rw [List.find?_eq_none] at hfind
        rw [List.any_eq_true] at hex
        obtain ⟨u, hu, hp⟩ := hex
        exact absurd hp (hfind u hu)
      | some u₀ =>
        simp only [Option.map_some']
        have h0 : (u₀.userID == v.userID) = true :=
          List.find?_some (p := fun u : User => u.userID == v.userID) hfind
        rw [if_pos h0]
        have he : u₀.userID = v.userID := by rwa [beq_iff_eq] at h0
        cases v
        cases u₀
        simp only at he
        simp [he]
    · rw [if_neg hv]
      cases hfind : users.find? (fun u => u.userID == uid) with
      | none => rfl
      | some u₀ =>
        simp only [Option.map_some']
        have h0 : (u₀.userID == uid) = true :=
          List.find?_some (p := fun u : User => u.userID == uid) hfind
        have he : u₀.userID = uid := by rwa [beq_iff_eq] at h0
        rw [if_neg (fun hc => hv (by rw [← (beq_iff_eq).mp hc, he]))]
  · rw [if_neg hex]
    unfold findUser
    rw [List.find?_append]
    by_cases hv : v.userID = uid
    · have hnone : users.find? (fun u => u.userID == uid) = none := by
        rw [List.find?_eq_none]
        intro u hu hp
        apply hex
        rw [List.any_eq_true]
        exact ⟨u, hu, by rw [hv]; exact hp⟩
      rw [hnone, if_pos hv]
      simp [List.find?, hv]
    · have hvf : (v.userID == uid) = false :=
        Bool.eq_false_iff.mpr (fun hc => hv (by rwa [beq_iff_eq] at hc))
      rw [if_neg hv]
      simp [List.find?, hvf]

lemma createTeamLoop_findUser (teamName : String) (ms : List TeamMember) (users : List User)
    (uid : String) :
    findUser (createTeamLoop teamName users ms) uid
      = match ms.reverse.find? (fun m => m.userID == uid) with
        | some m => some ⟨m.userID, m.username, teamName, m.isActive⟩
        | none => findUser users uid := by
  induction ms generalizing users with
  | nil => rfl
  | cons m rest ih =>
    rw [createTeamLoop, ih, List.reverse_cons, List.find?_append]
    cases hr : rest.reverse.find? (fun m => m.userID == uid) with
    | some m2 => rfl
    | none =>
      simp only [Option.none_or]
      by_cases hm : (m.userID == uid) = true
      · have hone : List.find? (fun m => m.userID == uid) [m] = some m := by
          simp [List.find?, hm]
        rw [hone]
        have hv : m.userID = uid := by rwa [beq_iff_eq] at hm
        rw [findUser_upsert, if_pos hv]
      · have hmf : (m.userID == uid) = false := Bool.eq_false_iff.mpr hm
        have hone : List.find? (fun m => m.userID == uid) [m] = none := by
          simp [List.find?, hmf]
        rw [hone]
        have hv : ¬ m.userID = uid := fun hc => hm (by rw [hc]; exact beq_self_eq_true uid)
        rw [findUser_upsert, if_neg hv]

/-- **C8.** `CreateTeam` fails with `TEAM_EXISTS` (rolled-back transaction, no
state change) when the name is registered; otherwise it registers the team and
upserts every member: for every user id, the resulting user row is the last
member of the request with that id — with username, active flag and team name
(re-homing) taken from the request — and any user not listed is untouched.
PRs and assignments are never touched. -/
theorem createTeam_spec (st : DBState) (team : Team) :
    (st.teams.contains team.teamName = true →
      CreateTeam st team = .error "TEAM_EXISTS: team_name already exists") ∧
    (st.teams.contains team.teamName = false →
      ∃ st', CreateTeam st team = .ok st' ∧
        st'.teams = st.teams ++ [team.teamName] ∧
        st'.prs = st.prs ∧ st'.prReviewers = st.prReviewers ∧
        ∀ uid, findUser st'.users uid
          = match team.members.reverse.find? (fun m => m.userID == uid) with
            | some m => some ⟨m.userID, m.username, team.teamName, m.isActive⟩
            | none => findUser st.users uid) := by
  constructor
  · intro h
    unfold CreateTeam
    rw [if_pos h]
  · intro h
    have hok : CreateTeam st team = .ok { st with teams := st.teams ++ [team.teamName], users := createTeamLoop team.teamName st.users team.members } := by
      unfold CreateTeam
      rw [if_neg (by rw [h]; exact fun hc => by cases hc)]
    exact ⟨_, hok, rfl, rfl, rfl,
      fun uid => createTeamLoop_findUser team.teamName team.members st.users uid⟩

/-- Witness for `createTeam_spec`: creating `backend` re-homes the existing
user `u9` from team `other` and inserts the new user `u2`. -/
theorem createTeam_spec_witness :
    ∃ st', CreateTeam
        { teams := ["other"],
          users := [⟨"u9", "Old", "other", false⟩],
          prs := [], prReviewers := [] }
        ⟨"backend", [⟨"u9", "New", true⟩, ⟨"u2", "Bob", true⟩]⟩ = .ok st' ∧
      st'.teams = ["other"] ++ ["backend"] ∧
      st'.prs = [] ∧ st'.prReviewers = [] ∧
      ∀ uid, findUser st'.users uid
        = match ([⟨"u9", "New", true⟩, ⟨"u2", "Bob", true⟩] :
              List TeamMember).reverse.find? (fun m => m.userID == uid) with
          | some m => some ⟨m.userID, m.username, "backend", m.isActive⟩
          | none => findUser [⟨"u9", "Old", "other", false⟩] uid :=
  (createTeam_spec
    { teams := ["other"],
      users := [⟨"u9", "Old", "other", false⟩],
      prs := [], prReviewers := [] }
    ⟨"backend", [⟨"u9", "New", true⟩, ⟨"u2", "Bob", true⟩]⟩).2 (by decide)

lemma contains_cons_ne {x uid : String} {rest : List String} (h : x ≠ uid) :
    (uid :: rest).contains x = rest.contains x := by
  rw [List.contains_eq_any_beq, List.contains_eq_any_beq, List.any_cons]
  have hf : (x == uid) = false := Bool.eq_false_iff.mpr (fun hc => h (by rwa [beq_iff_eq] at hc))
  rw [hf, Bool.false_or]

lemma deactivateUserRow_ids (users : List User) (uid : String) :
    ((deactivateUserRow users uid).map (fun u => u.userID)).Nodup
      ↔ (users.map (fun u => u.userID)).Nodup := by
  unfold deactivateUserRow
  rw [List.map_map]
  have hcomp : ((fun u : User => u.userID) ∘ (fun u =>
      if u.userID == uid then { u with isActive := false } else u)) = fun u : User => u.userID := by
    funext u
    by_cases hc : (u.userID == uid) = true
    · simp only [Function.comp_apply, if_pos hc]
    · simp only [Function.comp_apply, if_neg hc]
  rw [hcomp]

/-- The per-user loop of `BulkDeactivateUsers` equals a single pass that
deactivates exactly the listed members of the team (user ids are unique). -/
lemma bulkLoop_cons (team uid : String) (rest : List String) (users : List User) :
    bulkLoop team users (uid :: rest)
      = match findUser users uid with
        | none => bulkLoop team users rest
        | some u => if u.teamName != team then bulkLoop team users rest
                    else bulkLoop team (deactivateUserRow users uid) rest := rfl

lemma bulkLoop_eq_map (team : String) (uids : List String) (users : List User)
    (h : (users.map (fun u => u.userID)).Nodup) :
    bulkLoop team users uids = users.map (fun u =>
      if u.teamName == team && uids.contains u.userID
      then { u with isActive := false } else u) := by
  induction uids generalizing users with
  | nil =>
    rw [bulkLoop]
    have hid : ∀ u ∈ users,
        (if u.teamName == team && ([] : List String).contains u.userID
         then { u with isActive := false } else u) = u := by
      intro u _
      rw [if_neg (by simp)]
    rw [List.map_congr_left hid, List.map_id']
  | cons uid rest ih =>
    have hinj := List.inj_on_of_nodup_map h
    rw [bulkLoop_cons]
    cases hfu : findUser users uid with
    | none =>
      show bulkLoop team users rest = _
      have hnone : ∀ u ∈ users, u.userID ≠ uid := by
        intro u hu he
        unfold findUser at hfu
        rw [List.find?_eq_none] at hfu
        exact hfu u hu (by rw [he]; exact beq_self_eq_true uid)
      rw [ih users h]
      apply List.map_congr_left
      intro u hu
      rw [contains_cons_ne (hnone u hu)]
    | some u₀ =>
      show (if u₀.teamName != team then bulkLoop team users rest
            else bulkLoop team (deactivateUserRow users uid) rest) = _
      have hu₀mem : u₀ ∈ users := by
        unfold findUser at hfu
        exact List.mem_of_find?_eq_some hfu
      have he0 : u₀.userID = uid := by
        unfold findUser at hfu
        have := List.find?_some (p := fun u : User => u.userID == uid) hfu
        rwa [beq_iff_eq] at this
      by_cases ht : (u₀.teamName != team) = true
      · rw [if_pos ht]
        have hne0 : u₀.teamName ≠ team := by rwa [bne_iff_ne] at ht
        rw [ih users h]
        apply List.map_congr_left
        intro u hu
        by_cases hid : u.userID = uid
        · have hueq : u = u₀ := hinj hu hu₀mem (by rw [hid, he0])
          have hteamf : (u.teamName == team) = false := by
            rw [hueq]
            exact Bool.eq_false_iff.mpr (fun hc => hne0 (by rwa [beq_iff_eq] at hc))
          rw [if_neg (by rw [hteamf, Bool.false_and]; exact fun hc => by cases hc),
            if_neg (by rw [hteamf, Bool.false_and]; exact fun hc => by cases hc)]
        · rw [contains_cons_ne hid]
      · rw [if_neg ht]
        have hteam0 : u₀.teamName = team := by
          rw [Bool.not_eq_true] at ht
          rw [bne] at ht
          have : (u₀.teamName == team) = true := by
            cases hbe : u₀.teamName == team with
            | true => rfl
            | false => rw [hbe] at ht; cases ht
          rwa [beq_iff_eq] at this
        rw [ih _ ((deactivateUserRow_ids users uid).mpr h)]
        unfold deactivateUserRow
        rw [List.map_map]
        apply List.map_congr_left
        intro u hu
        by_cases hid : u.userID = uid
        · have hueq : u = u₀ := hinj hu hu₀mem (by rw [hid, he0])
          have hteamT : (u.teamName == team) = true := by
            rw [hueq]
            exact beq_iff_eq.mpr hteam0
          have hcontains : ((uid :: rest).contains u.userID) = true := by
            rw [List.contains_eq_any_beq, List.any_cons]
            have : (u.userID == uid) = true := beq_iff_eq.mpr hid
            rw [this, Bool.true_or]
          by_cases hr : rest.contains u.userID = true
          · simp [Function.comp, hid, hteamT, hr, hcontains]
          · have hrf : rest.contains u.userID = false := Bool.eq_false_iff.mpr hr
            simp [Function.comp, hid, hteamT, hrf, hcontains]
        · have hidf : (u.userID == uid) = false :=
            Bool.eq_false_iff.mpr (fun hc => hid (by rwa [beq_iff_eq] at hc))
          simp only [Function.comp_apply, hidf, Bool.false_eq_true, if_false]
          rw [contains_cons_ne hid]

/-- **C7.** `BulkDeactivateUsers(team, userIDs)` fails with `NOT_FOUND` for an
unknown team (rolled-back, no change); otherwise it succeeds, changing only
the `users` table: exactly the listed ids that are members of the team get
`is_active = false` (ids that do not exist or belong to another team are
skipped silently), and no PR or assignment is touched. -/
theorem bulkDeactivate_spec (st : DBState) (teamName : String) (userIDs : List String) :
    (st.teams.contains teamName = false →
      BulkDeactivateUsers st teamName userIDs = .error "NOT_FOUND: team not found") ∧
    (st.teams.contains teamName = true → UsersNodup st →
      BulkDeactivateUsers st teamName userIDs
        = .ok { st with users := st.users.map (fun u =>
            if u.teamName == teamName && userIDs.contains u.userID
            then { u with isActive := false } else u) }) := by
  constructor
  · intro h
    unfold BulkDeactivateUsers
    rw [if_pos (by rw [h]; rfl)]
  · intro h hnd
    unfold BulkDeactivateUsers
    rw [if_neg (by rw [h]; exact fun hc => by cases hc)]
    rw [bulkLoop_eq_map teamName userIDs st.users hnd]

/-- Witness for `bulkDeactivate_spec`: deactivating `u1` (member), `u2`
(other team) and `zz` (nonexistent) flips only `u1.isActive`. -/
theorem bulkDeactivate_spec_witness :
    BulkDeactivateUsers
        { teams := ["backend", "other"],
          users := [⟨"u1", "Alice", "backend", true⟩, ⟨"u2", "Bob", "other", true⟩],
          prs := [], prReviewers := [] } "backend" ["u1", "u2", "zz"]
      = .ok { teams := ["backend", "other"],
              users := ([⟨"u1", "Alice", "backend", true⟩,
                ⟨"u2", "Bob", "other", true⟩] : List User).map (fun u =>
                  if u.teamName == "backend" && (["u1", "u2", "zz"] : List String).contains u.userID
                  then { u with isActive := false } else u),
              prs := [], prReviewers := [] } :=
  (bulkDeactivate_spec
    { teams := ["backend", "other"],
      users := [⟨"u1", "Alice", "backend", true⟩, ⟨"u2", "Bob", "other", true⟩],
      prs := [], prReviewers := [] } "backend" ["u1", "u2", "zz"]).2 (by decide)
    (by unfold UsersNodup; decide)

lemma candidatesForAuthor_nodup {users : List User}
    (h : (users.map (fun u => u.userID)).Nodup) (team author : String) :
    (candidatesForAuthor users team author).Nodup := by
  unfold candidatesForAuthor
  rw [(sortStrings_perm _).nodup_iff]
  exact (((List.filter_sublist users).map (fun u => u.userID))).nodup h

lemma mem_candidatesForAuthor {users : List User} {team author r : String}
    (h : r ∈ candidatesForAuthor users team author) :
    ∃ u ∈ users, u.userID = r ∧ u.teamName = team ∧ u.isActive = true ∧ r ≠ author := by
  unfold candidatesForAuthor at h
  rw [(sortStrings_perm _).mem_iff] at h
  obtain ⟨u, hu, huid⟩ := List.mem_map.mp h
  rw [List.mem_filter] at hu
  obtain ⟨humem, hcond⟩ := hu
  simp only [Bool.and_eq_true, beq_iff_eq, bne_iff_ne] at hcond
  obtain ⟨⟨hteam, hact⟩, hne⟩ := hcond
  subst huid
  exact ⟨u, humem, rfl, hteam, hact, hne⟩

/-- **C1.** For every state where the PR id is fresh and the author exists,
`CreatePullRequest` succeeds (also when the candidate pool is empty), and the
assignment set it persists has exactly `min 2 |pool|` reviewers, without
duplicates, all of them active members of the author's team and never the
author — for every outcome `perm` of the random shuffle. -/
theorem createPR_reviewers_spec (st : DBState) (prID prName authorID : String) (now : Nat)
    (perm : List Nat) (author : User)
    (hW : UsersNodup st) (hFK : PairsFK st)
    (hnew : (st.prs.any fun p => p.prID == prID) = false)
    (hauth : findUser st.users authorID = some author)
    (hperm : perm.Perm (List.range (candidatesForAuthor st.users author.teamName authorID).length)) :
    ∃ st' res, CreatePullRequest st prID prName authorID now perm = .ok (st', res) ∧
      (prAssignments st' prID).length
        = min 2 (candidatesForAuthor st.users author.teamName authorID).length ∧
      (prAssignments st' prID).Nodup ∧
      (∀ r ∈ prAssignments st' prID, ∃ u ∈ st.users,
        u.userID = r ∧ u.teamName = author.teamName ∧ u.isActive = true ∧ r ≠ authorID) ∧
      (candidatesForAuthor st.users author.teamName authorID = [] →
        prAssignments st' prID = []) := by
  have hnotin : ∀ p ∈ st.prs, (p.prID == prID) = false := by
    rw [List.any_eq_false] at hnew
    intro p hp
    exact Bool.eq_false_iff.mpr (hnew p hp)
  have hfindnew : findPR (st.prs ++ [(⟨prID, prName, authorID, .OPEN, now, none⟩ :
      PullRequestRow)]) prID = some ⟨prID, prName, authorID, .OPEN, now, none⟩ := by
    unfold findPR
    rw [List.find?_append]
    have h1 : st.prs.find? (fun p => p.prID == prID) = none := by
      rw [List.find?_eq_none]
      intro p hp hc
      rw [hnotin p hp] at hc
      cases hc
    rw [h1, Option.none_or]
    simp [List.find?, beq_self_eq_true]
  have hsel := selectRandomReviewers_spec (n := 2) hperm
    (candidatesForAuthor_nodup hW author.teamName authorID)
  have hok : CreatePullRequest st prID prName authorID now perm
      = .ok ({ st with prs := st.prs ++ [⟨prID, prName, authorID, .OPEN, now, none⟩], prReviewers := st.prReviewers ++ (selectRandomReviewers (candidatesForAuthor st.users author.teamName authorID) 2 perm).map (fun r => (prID, r)) },
        hydratePR { st with prs := st.prs ++ [⟨prID, prName, authorID, .OPEN, now, none⟩], prReviewers := st.prReviewers ++ (selectRandomReviewers (candidatesForAuthor st.users author.teamName authorID) 2 perm).map (fun r => (prID, r)) } prID ⟨prID, prName, authorID, .OPEN, now, none⟩) := by
    unfold CreatePullRequest
    rw [if_neg (by rw [hnew]; exact fun hc => by cases hc)]
    simp only [hauth]
    rw [getPullRequest_ok hfindnew]
    rfl
  have hassign : prAssignments { st with prs := st.prs ++ [⟨prID, prName, authorID, .OPEN, now, none⟩], prReviewers := st.prReviewers ++ (selectRandomReviewers (candidatesForAuthor st.users author.teamName authorID) 2 perm).map (fun r => (prID, r)) } prID
      = selectRandomReviewers (candidatesForAuthor st.users author.teamName authorID) 2 perm := by
    unfold prAssignments
    rw [List.filter_append]
    have h1 : st.prReviewers.filter (fun q => q.1 == prID) = [] := by
      rw [List.filter_eq_nil_iff]
      intro q hq
      have hany := hFK q hq
      rw [List.any_eq_true] at hany
      obtain ⟨p, hp, hpq⟩ := hany
      have hpq2 : p.prID = q.1 := by rwa [beq_iff_eq] at hpq
      intro hc
      have hq1 : q.1 = prID := by rwa [beq_iff_eq] at hc
      have := hnotin p hp
      rw [hpq2, hq1] at this
      rw [beq_self_eq_true] at this
      cases this
    have h2 : ((selectRandomReviewers (candidatesForAuthor st.users author.teamName authorID)
        2 perm).map (fun r => (prID, r))).filter (fun q => q.1 == prID)
        = (selectRandomReviewers (candidatesForAuthor st.users author.teamName authorID)
            2 perm).map (fun r => (prID, r)) := by
      rw [List.filter_eq_self]
      intro q hq
      rw [List.mem_map] at hq
      obtain ⟨r, _, hr⟩ := hq
      rw [← hr]
      exact beq_self_eq_true prID
    rw [h1, h2, List.nil_append, List.map_map]
    exact List.map_id' _
  refine ⟨_, _, hok, ?_, ?_, ?_, ?_⟩
  · rw [hassign]
    exact hsel.1
  · rw [hassign]
    exact hsel.2.1
  · rw [hassign]
    intro r hr
    exact mem_candidatesForAuthor (hsel.2.2 hr)
  · intro hempty
    rw [hassign, ← List.length_eq_zero, hempty]
    have := hsel.1
    rw [hempty] at this
    simpa using this

/-- Witness for `createPR_reviewers_spec`: the spec scenario — team of three,
author `u1`, pool `{u2,u3}`, shuffle `[1,0]` — yields two reviewers. -/
theorem createPR_reviewers_spec_witness :
    ∃ st' res, CreatePullRequest
        { teams := ["backend"],
          users := [⟨"u1", "Alice", "backend", true⟩, ⟨"u2", "Bob", "backend", true⟩,
                    ⟨"u3", "Charlie", "backend", true⟩],
          prs := [], prReviewers := [] } "pr-1" "Test PR" "u1" 5 [1, 0] = .ok (st', res) ∧
      (prAssignments st' "pr-1").length
        = min 2 (candidatesForAuthor [⟨"u1", "Alice", "backend", true⟩,
            ⟨"u2", "Bob", "backend", true⟩, ⟨"u3", "Charlie", "backend", true⟩]
            "backend" "u1").length ∧
      (prAssignments st' "pr-1").Nodup ∧
      (∀ r ∈ prAssignments st' "pr-1", ∃ u ∈ [(⟨"u1", "Alice", "backend", true⟩ : User),
          ⟨"u2", "Bob", "backend", true⟩, ⟨"u3", "Charlie", "backend", true⟩],
        u.userID = r ∧ u.teamName = "backend" ∧ u.isActive = true ∧ r ≠ "u1") ∧
      (candidatesForAuthor [⟨"u1", "Alice", "backend", true⟩, ⟨"u2", "Bob", "backend", true⟩,
          ⟨"u3", "Charlie", "backend", true⟩] "backend" "u1" = [] →
        prAssignments st' "pr-1" = []) :=
  createPR_reviewers_spec
    { teams := ["backend"],
      users := [⟨"u1", "Alice", "backend", true⟩, ⟨"u2", "Bob", "backend", true⟩,
                ⟨"u3", "Charlie", "backend", true⟩],
      prs := [], prReviewers := [] } "pr-1" "Test PR" "u1" 5 [1, 0]
    ⟨"u1", "Alice", "backend", true⟩
    (by unfold UsersNodup; decide) (by unfold PairsFK; decide) (by decide) (by decide)
    (by decide)

lemma DBState.ext_eq {a b : DBState} (h1 : a.teams = b.teams) (h2 : a.users = b.users)
    (h3 : a.prs = b.prs) (h4 : a.prReviewers = b.prReviewers) : a = b := by
  cases a
  cases b
  simp_all

/-- A successful `ReassignReviewer` preserves the assignment-set size of
every PR (the one being reassigned and all others). -/
lemma reassign_ok_lengths {st : DBState} {prID old : String} {k : Nat}
    {st' : DBState} {hyd : PullRequest} {nw : String}
    (h : ReassignReviewer st prID old k = .ok (st', hyd, nw)) (q0 : String) :
    (prAssignments st' q0).length = (prAssignments st q0).length := by
  obtain ⟨pr, oldUser, hfind, hm, ha, hfu, hnw, hteams, husers, hprs, hpairs⟩ :=
    reassign_ok_inversion h
  have hstcast : st' = { st with prReviewers := st.prReviewers.map (fun q =>
      if q.1 == prID && q.2 == old then (prID, nw) else q) } :=
    DBState.ext_eq hteams husers hprs hpairs
  rw [hstcast]
  exact prAssignments_replace_length st prID old nw q0

lemma reassignLoop_cons (st : DBState) (p : String × String) (rest : List (String × String))
    (ks : Nat → Nat) (i : Nat) :
    reassignLoop st (p :: rest) ks i
      = match ReassignReviewer st p.1 p.2 (ks i) with
        | .ok r => ((reassignLoop r.1 rest ks (i + 1)).1, (reassignLoop r.1 rest ks (i + 1)).2 + 1)
        | .error _ => reassignLoop st rest ks (i + 1) := rfl

lemma reassignTrace_cons (st : DBState) (p : String × String) (rest : List (String × String))
    (ks : Nat → Nat) (i : Nat) :
    reassignTrace st (p :: rest) ks i
      = match ReassignReviewer st p.1 p.2 (ks i) with
        | .ok r => true :: reassignTrace r.1 rest ks (i + 1)
        | .error _ => false :: reassignTrace st rest ks (i + 1) := rfl

lemma reassignLoop_lengths (pairs : List (String × String)) (st : DBState) (ks : Nat → Nat)
    (i : Nat) (q0 : String) :
    (prAssignments (reassignLoop st pairs ks i).1 q0).length
      = (prAssignments st q0).length := by
  induction pairs generalizing st i with
  | nil => rfl
  | cons p rest ih =>
    rw [reassignLoop_cons]
    cases hr : ReassignReviewer st p.1 p.2 (ks i) with
    | ok r =>
      show (prAssignments (reassignLoop r.1 rest ks (i + 1)).1 q0).length
        = (prAssignments st q0).length
      rw [ih r.1 (i + 1)]
      obtain ⟨st2, hyd2, nw2⟩ := r
      exact reassign_ok_lengths hr q0
    | error e =>
      show (prAssignments (reassignLoop st rest ks (i + 1)).1 q0).length
        = (prAssignments st q0).length
      exact ih st (i + 1)

lemma reassignLoop_count (pairs : List (String × String)) (st : DBState) (ks : Nat → Nat)
    (i : Nat) :
    (reassignLoop st pairs ks i).2 = (reassignTrace st pairs ks i).count true := by
  induction pairs generalizing st i with
  | nil => rfl
  | cons p rest ih =>
    rw [reassignLoop_cons, reassignTrace_cons]
    cases hr : ReassignReviewer st p.1 p.2 (ks i) with
    | ok r =>
      show (reassignLoop r.1 rest ks (i + 1)).2 + 1
        = (true :: reassignTrace r.1 rest ks (i + 1)).count true
      rw [List.count_cons_self, ih r.1 (i + 1)]
    | error e =>
      show (reassignLoop st rest ks (i + 1)).2
        = (false :: reassignTrace st rest ks (i + 1)).count true
      rw [List.count_cons_of_ne (by decide), ih st (i + 1)]

lemma reassignTrace_length (pairs : List (String × String)) (st : DBState) (ks : Nat → Nat)
    (i : Nat) : (reassignTrace st pairs ks i).length = pairs.length := by
  induction pairs generalizing st i with
  | nil => rfl
  | cons p rest ih =>
    rw [reassignTrace_cons]
    cases hr : ReassignReviewer st p.1 p.2 (ks i) with
    | ok r =>
      show (true :: reassignTrace r.1 rest ks (i + 1)).length = rest.length + 1
      rw [List.length_cons, ih r.1 (i + 1)]
    | error e =>
      show (false :: reassignTrace st rest ks (i + 1)).length = rest.length + 1
      rw [List.length_cons, ih st (i + 1)]

lemma toReassign_nil (st : DBState) : toReassign st [] = [] := by
  unfold toReassign
  have h1 : st.prReviewers.filter (fun q =>
      (st.prs.any (fun p => p.prID == q.1 && p.status == .OPEN)) &&
      ([] : List String).contains q.2 &&
      (st.users.any (fun u => u.userID == q.2 && u.isActive == false))) = [] := by
    rw [List.filter_eq_nil_iff]
    intro q _
    simp
  rw [h1]
  rfl

/-- **C6.** `SafeReassignOpenPRs` leaves the assignment-set size of every PR
unchanged (a successful per-pair reassignment replaces, never removes, and a
failed one is swallowed leaving that PR's assignments untouched — the
operation itself never returns an error), and the returned count is exactly
the number of (open PR, inactive reviewer) pairs whose individual
`ReassignReviewer` attempt succeeded, bounded by the number of such pairs. -/
theorem safeReassign_spec (st : DBState) (ids : List String) (ks : Nat → Nat)
    (st' : DBState) (cnt : Nat)
    (h : SafeReassignOpenPRs st ids ks = (st', cnt)) :
    (∀ q0, (prAssignments st' q0).length = (prAssignments st q0).length) ∧
    cnt = (reassignTrace st (toReassign st ids) ks 0).count true ∧
    cnt ≤ (toReassign st ids).length := by
  unfold SafeReassignOpenPRs at h
  by_cases hid : ids.length = 0
  · rw [if_pos hid] at h
    cases h
    have hids : ids = [] := List.length_eq_zero.mp hid
    rw [hids, toReassign_nil]
    exact ⟨fun q0 => rfl, rfl, Nat.le_refl 0⟩
  · rw [if_neg hid] at h
    have h1 : st' = (reassignLoop st (toReassign st ids) ks 0).1 := by
      rw [h]
    have h2 : cnt = (reassignLoop st (toReassign st ids) ks 0).2 := by
      rw [h]
    refine ⟨?_, ?_, ?_⟩
    · intro q0
      rw [h1]
      exact reassignLoop_lengths (toReassign st ids) st ks 0 q0
    · rw [h2]
      exact reassignLoop_count (toReassign st ids) st ks 0
    · rw [h2, reassignLoop_count]
      calc (reassignTrace st (toReassign st ids) ks 0).count true
          ≤ (reassignTrace st (toReassign st ids) ks 0).length := List.count_le_length _ _
        _ = (toReassign st ids).length := reassignTrace_length _ _ _ _

/-- Witness for `safeReassign_spec`: open PR reviewed by the now-inactive
`u2`; the one pair is successfully replaced, count 1, sizes preserved. -/
theorem safeReassign_spec_witness :
    (∀ q0, (prAssignments
        (SafeReassignOpenPRs
          { teams := ["backend"],
            users := [⟨"u1", "Alice", "backend", true⟩, ⟨"u2", "Bob", "backend", false⟩,
                      ⟨"u3", "Charlie", "backend", true⟩],
            prs := [⟨"pr-1", "Test PR", "u1", .OPEN, 5, none⟩],
            prReviewers := [("pr-1", "u3"), ("pr-1", "u2")] } ["u2"] (fun _ => 0)).1 q0).length
      = (prAssignments
          { teams := ["backend"],
            users := [⟨"u1", "Alice", "backend", true⟩, ⟨"u2", "Bob", "backend", false⟩,
                      ⟨"u3", "Charlie", "backend", true⟩],
            prs := [⟨"pr-1", "Test PR", "u1", .OPEN, 5, none⟩],
            prReviewers := [("pr-1", "u3"), ("pr-1", "u2")] } q0).length) ∧
    (SafeReassignOpenPRs
        { teams := ["backend"],
          users := [⟨"u1", "Alice", "backend", true⟩, ⟨"u2", "Bob", "backend", false⟩,
                    ⟨"u3", "Charlie", "backend", true⟩],
          prs := [⟨"pr-1", "Test PR", "u1", .OPEN, 5, none⟩],
          prReviewers := [("pr-1", "u3"), ("pr-1", "u2")] } ["u2"] (fun _ => 0)).2
      = (reassignTrace
          { teams := ["backend"],
            users := [⟨"u1", "Alice", "backend", true⟩, ⟨"u2", "Bob", "backend", false⟩,
                      ⟨"u3", "Charlie", "backend", true⟩],
            prs := [⟨"pr-1", "Test PR", "u1", .OPEN, 5, none⟩],
            prReviewers := [("pr-1", "u3"), ("pr-1", "u2")] }
          (toReassign
            { teams := ["backend"],
              users := [⟨"u1", "Alice", "backend", true⟩, ⟨"u2", "Bob", "backend", false⟩,
                        ⟨"u3", "Charlie", "backend", true⟩],
              prs := [⟨"pr-1", "Test PR", "u1", .OPEN, 5, none⟩],
              prReviewers := [("pr-1", "u3"), ("pr-1", "u2")] } ["u2"]) (fun _ => 0) 0).count
          true := by
  have hs := safeReassign_spec
    { teams := ["backend"],
      users := [⟨"u1", "Alice", "backend", true⟩, ⟨"u2", "Bob", "backend", false⟩,
                ⟨"u3", "Charlie", "backend", true⟩],
      prs := [⟨"pr-1", "Test PR", "u1", .OPEN, 5, none⟩],
      prReviewers := [("pr-1", "u3"), ("pr-1", "u2")] } ["u2"] (fun _ => 0) _ _ rfl
  exact ⟨hs.1, hs.2.1⟩

/-- **C9, counterexample.** `ReassignReviewer` excludes only the old reviewer
and the current assignment set — not the PR's author.  In the repository's own
test scenario (team of three, author `u1`, reviewers `u2`,`u3`), reassigning
`u2` succeeds and assigns the author `u1` as reviewer of their own PR, so the
claimed invariant fails after a successful operation. -/
theorem reassign_author_counterexample :
    ReassignReviewer
        { teams := ["backend"],
          users := [⟨"u1", "Alice", "backend", true⟩, ⟨"u2", "Bob", "backend", true⟩,
                    ⟨"u3", "Charlie", "backend", true⟩],
          prs := [⟨"pr-1", "Test PR", "u1", .OPEN, 5, none⟩],
          prReviewers := [("pr-1", "u3"), ("pr-1", "u2")] } "pr-1" "u2" 0
      = .ok ({ teams := ["backend"],
               users := [⟨"u1", "Alice", "backend", true⟩, ⟨"u2", "Bob", "backend", true⟩,
                         ⟨"u3", "Charlie", "backend", true⟩],
               prs := [⟨"pr-1", "Test PR", "u1", .OPEN, 5, none⟩],
               prReviewers := [("pr-1", "u3"), ("pr-1", "u1")] },
             ⟨"pr-1", "Test PR", "u1", .OPEN, ["u1", "u3"], some 5, none⟩, "u1") ∧
    (⟨"pr-1", "Test PR", "u1", .OPEN, 5, none⟩ : PullRequestRow) ∈
      ({ teams := ["backend"],
         users := [⟨"u1", "Alice", "backend", true⟩, ⟨"u2", "Bob", "backend", true⟩,
                   ⟨"u3", "Charlie", "backend", true⟩],
         prs := [⟨"pr-1", "Test PR", "u1", .OPEN, 5, none⟩],
         prReviewers := [("pr-1", "u3"), ("pr-1", "u1")] } : DBState).prs ∧
    (⟨"pr-1", "Test PR", "u1", .OPEN, 5, none⟩ : PullRequestRow).authorID = "u1" ∧
    "u1" ∈ prAssignments
      { teams := ["backend"],
        users := [⟨"u1", "Alice", "backend", true⟩, ⟨"u2", "Bob", "backend", true⟩,
                  ⟨"u3", "Charlie", "backend", true⟩],
        prs := [⟨"pr-1", "Test PR", "u1", .OPEN, 5, none⟩],
        prReviewers := [("pr-1", "u3"), ("pr-1", "u1")] } "pr-1" := by
  refine ⟨by decide, by decide, rfl, by decide⟩

lemma prAssignments_append (st : DBState) (newPRs : List PullRequestRow) (prID : String)
    (rs : List String) (q0 : String) :
    prAssignments { st with prs := newPRs, prReviewers := st.prReviewers ++ rs.map (fun r => (prID, r)) } q0
      = prAssignments st q0 ++ (if prID == q0 then rs else []) := by
  show ((st.prReviewers ++ rs.map (fun r => (prID, r))).filter
      (fun q => q.1 == q0)).map (fun q => q.2) = _
  rw [List.filter_append, List.map_append]
  congr 1
  by_cases hpq : (prID == q0) = true
  · rw [if_pos hpq]
    have hself : (rs.map (fun r => (prID, r))).filter (fun q => q.1 == q0)
        = rs.map (fun r => (prID, r)) := by
      rw [List.filter_eq_self]
      intro q hq
      rw [List.mem_map] at hq
      obtain ⟨r, _, hr⟩ := hq
      rw [← hr]
      exact hpq
    rw [hself, List.map_map]
    exact List.map_id' rs
  · rw [if_neg hpq]
    have hnil : (rs.map (fun r => (prID, r))).filter (fun q => q.1 == q0) = [] := by
      rw [List.filter_eq_nil_iff]
      intro q hq
      rw [List.mem_map] at hq
      obtain ⟨r, _, hr⟩ := hq
      rw [← hr]
      exact fun hc => hpq hc
    rw [hnil]
    rfl

/-- A successful `ReassignReviewer` preserves duplicate-freeness of every
PR's assignment set. -/
lemma reassign_ok_nodupInv {st : DBState} {prID old : String} {k : Nat}
    {st2 : DBState} {hyd : PullRequest} {nw : String}
    (h : ReassignReviewer st prID old k = .ok (st2, hyd, nw)) (hinv : NodupInv st) :
    NodupInv st2 := by
  obtain ⟨pr, oldUser, hfind, hm, ha, hfu, hnw, hteams, husers, hprs, hpairs⟩ :=
    reassign_ok_inversion h
  obtain ⟨u, humem, huid, hteam, hact, hne, hnotin⟩ := mem_reassignCandidates hnw
  have hstcast : st2 = { st with prReviewers := st.prReviewers.map (fun q =>
      if q.1 == prID && q.2 == old then (prID, nw) else q) } :=
    DBState.ext_eq hteams husers hprs hpairs
  rw [hstcast]
  intro pr2 hpr2
  have hpr2s : pr2 ∈ st.prs := hpr2
  by_cases hq : pr2.prID = prID
  · rw [hq, prAssignments_after_replace]
    have hA : (prAssignments st prID).Nodup := by
      have := hinv pr2 hpr2s
      rwa [hq] at this
    apply hA.map_on
    intro x hx y hy hxy
    by_cases hxo : (x == old) = true
    · by_cases hyo : (y == old) = true
      · rw [beq_iff_eq] at hxo hyo
        rw [hxo, hyo]
      · rw [if_pos hxo, if_neg hyo] at hxy
        exact absurd (hxy ▸ hy) hnotin
    · by_cases hyo : (y == old) = true
      · rw [if_neg hxo, if_pos hyo] at hxy
        exact absurd (hxy ▸ hx) hnotin
      · rwa [if_neg hxo, if_neg hyo] at hxy
  · rw [prAssignments_replace_other st prID old nw pr2.prID hq]
    exact hinv pr2 hpr2s

lemma reassignLoop_nodupInv (pairs : List (String × String)) (st : DBState) (ks : Nat → Nat)
    (i : Nat) (hinv : NodupInv st) : NodupInv (reassignLoop st pairs ks i).1 := by
  induction pairs generalizing st i with
  | nil => exact hinv
  | cons p rest ih =>
    rw [reassignLoop_cons]
    cases hr : ReassignReviewer st p.1 p.2 (ks i) with
    | ok r =>
      show NodupInv (reassignLoop r.1 rest ks (i + 1)).1
      obtain ⟨st2, hyd2, nw2⟩ := r
      exact ih st2 (i + 1) (reassign_ok_nodupInv hr hinv)
    | error e =>
      show NodupInv (reassignLoop st rest ks (i + 1)).1
      exact ih st (i + 1) hinv

lemma findPR_fresh (prs : List PullRequestRow) (row : PullRequestRow) (prID : String)
    (hrow : (row.prID == prID) = true)
    (hnotin : ∀ p ∈ prs, (p.prID == prID) = false) :
    findPR (prs ++ [row]) prID = some row := by
  unfold findPR
  rw [List.find?_append]
  have h1 : prs.find? (fun p => p.prID == prID) = none := by
    rw [List.find?_eq_none]
    intro p hp hc
    rw [hnotin p hp] at hc
    cases hc
  rw [h1, Option.none_or]
  simp [List.find?, hrow]

lemma prAssignments_fresh (st : DBState) (prID : String) (hFK : PairsFK st)
    (hnotin : ∀ p ∈ st.prs, (p.prID == prID) = false) :
    prAssignments st prID = [] := by
  unfold prAssignments
  have h1 : st.prReviewers.filter (fun q => q.1 == prID) = [] := by
    rw [List.filter_eq_nil_iff]
    intro q hq
    have hany := hFK q hq
    rw [List.any_eq_true] at hany
    obtain ⟨p, hp, hpq⟩ := hany
    have hpq2 : p.prID = q.1 := by rwa [beq_iff_eq] at hpq
    intro hc
    have hq1 : q.1 = prID := by rwa [beq_iff_eq] at hc
    have hfalse := hnotin p hp
    rw [hpq2, hq1, beq_self_eq_true] at hfalse
    cases hfalse
  rw [h1]
  rfl

/-- **C9, amended.** After every successful state-mutating operation, every
PR's assignment set is free of duplicate reviewers; and every operation other
than `ReassignReviewer` (and `SafeReassignOpenPRs`, which iterates it) also
preserves "no assigned reviewer equals the PR's author", which
`CreatePullRequest` establishes outright for the PR it creates.
`ReassignReviewer` does not preserve the author part: its exclusion set is
only `{old reviewer} ∪ current reviewers`, so the author can be chosen (see
the counterexample). -/
theorem serviceInvariants_amended :
    (∀ st team st2, CreateTeam st team = .ok st2 →
      (NodupInv st → NodupInv st2) ∧ (NoAuthorInv st → NoAuthorInv st2)) ∧
    (∀ st uid b st2 u, SetUserActive st uid b = .ok (st2, u) →
      (NodupInv st → NodupInv st2) ∧ (NoAuthorInv st → NoAuthorInv st2)) ∧
    (∀ st prID prName authorID now perm st2 res author,
      CreatePullRequest st prID prName authorID now perm = .ok (st2, res) →
      UsersNodup st → PairsFK st →
      findUser st.users authorID = some author →
      perm.Perm (List.range (candidatesForAuthor st.users author.teamName authorID).length) →
      (NodupInv st → NodupInv st2) ∧ (NoAuthorInv st → NoAuthorInv st2)) ∧
    (∀ st prID now st2 res, MergePullRequest st prID now = .ok (st2, res) →
      (NodupInv st → NodupInv st2) ∧ (NoAuthorInv st → NoAuthorInv st2)) ∧
    (∀ st prID old k st2 hyd nw, ReassignReviewer st prID old k = .ok (st2, hyd, nw) →
      NodupInv st → NodupInv st2) ∧
    (∀ st teamName uids st2, BulkDeactivateUsers st teamName uids = .ok st2 →
      (NodupInv st → NodupInv st2) ∧ (NoAuthorInv st → NoAuthorInv st2)) ∧
    (∀ st ids ks, NodupInv st → NodupInv (SafeReassignOpenPRs st ids ks).1) := by
  refine ⟨?_, ?_, ?_, ?_, ?_, ?_, ?_⟩
  · -- CreateTeam: only teams/users change
    intro st team st2 h
    unfold CreateTeam at h
    by_cases hc : st.teams.contains team.teamName = true
    · rw [if_pos hc] at h
      exact Except.noConfusion h
    · rw [if_neg hc] at h
      cases h
      exact ⟨fun hinv => hinv, fun hNA => hNA⟩
  · -- SetUserActive: only users change
    intro st uid b st2 u h
    unfold SetUserActive at h
    cases hfu : findUser st.users uid with
    | none =>
      rw [hfu] at h
      exact Except.noConfusion h
    | some u₀ =>
      rw [hfu] at h
      cases h
      exact ⟨fun hinv => hinv, fun hNA => hNA⟩
  · -- CreatePullRequest
    intro st prID prName authorID now perm st2 res author h hW hFK hauth hperm
    by_cases hex : (st.prs.any fun p => p.prID == prID) = true
    · unfold CreatePullRequest at h
      rw [if_pos hex] at h
      exact Except.noConfusion h
    · have hnotin : ∀ p ∈ st.prs, (p.prID == prID) = false := by
        have hnew : (st.prs.any fun p => p.prID == prID) = false := Bool.eq_false_iff.mpr hex
        rw [List.any_eq_false] at hnew
        intro p hp
        exact Bool.eq_false_iff.mpr (hnew p hp)
      unfold CreatePullRequest at h
      rw [if_neg hex] at h
      simp only [hauth] at h
      have hfindnew : findPR (st.prs ++ [(⟨prID, prName, authorID, .OPEN, now, none⟩ :
          PullRequestRow)]) prID = some ⟨prID, prName, authorID, .OPEN, now, none⟩ :=
        findPR_fresh st.prs _ prID (beq_self_eq_true prID) hnotin
      rw [getPullRequest_ok hfindnew] at h
      simp only [Except.map] at h
      cases h
      have hsel := selectRandomReviewers_spec (n := 2) hperm
        (candidatesForAuthor_nodup hW author.teamName authorID)
      constructor
      · intro hinv pr2 hpr2
        rcases List.mem_append.mp hpr2 with hmem | hrow
        · rw [prAssignments_append]
          have hpq : (prID == pr2.prID) = false := by
            have := hnotin pr2 hmem
            exact Bool.eq_false_iff.mpr (fun hc =>
              (Bool.eq_false_iff.mp this) (beq_iff_eq.mpr ((beq_iff_eq.mp hc).symm)))
          rw [if_neg (by rw [hpq]; exact fun hc => by cases hc), List.append_nil]
          exact hinv pr2 hmem
        · have hrow2 : pr2 = ⟨prID, prName, authorID, .OPEN, now, none⟩ :=
            List.mem_singleton.mp hrow
          subst hrow2
          show (prAssignments _ prID).Nodup
          rw [prAssignments_append, prAssignments_fresh st prID hFK hnotin,
            if_pos (beq_self_eq_true prID), List.nil_append]
          exact hsel.2.1
      · intro hNA pr2 hpr2
        rcases List.mem_append.mp hpr2 with hmem | hrow
        · rw [prAssignments_append]
          have hpq : (prID == pr2.prID) = false := by
            have := hnotin pr2 hmem
            exact Bool.eq_false_iff.mpr (fun hc =>
              (Bool.eq_false_iff.mp this) (beq_iff_eq.mpr ((beq_iff_eq.mp hc).symm)))
          rw [if_neg (by rw [hpq]; exact fun hc => by cases hc), List.append_nil]
          exact hNA pr2 hmem
        · have hrow2 : pr2 = ⟨prID, prName, authorID, .OPEN, now, none⟩ :=
            List.mem_singleton.mp hrow
          subst hrow2
          show authorID ∉ prAssignments _ prID
          rw [prAssignments_append, prAssignments_fresh st prID hFK hnotin,
            if_pos (beq_self_eq_true prID), List.nil_append]
          intro hmem2
          obtain ⟨_, _, _, _, _, hnea⟩ := mem_candidatesForAuthor (hsel.2.2 hmem2)
          exact hnea rfl
  · -- MergePullRequest
    intro st prID now st2 res h
    cases hfind : findPR st.prs prID with
    | none =>
      simp only [MergePullRequest, hfind] at h
      exact Except.noConfusion h
    | some p =>
      simp only [MergePullRequest, hfind] at h
      by_cases hm : (p.status == PullRequestStatus.MERGED) = true
      · rw [if_pos hm, getPullRequest_ok hfind] at h
        simp only [Except.map] at h
        cases h
        exact ⟨fun hinv => hinv, fun hNA => hNA⟩
      · rw [if_neg hm] at h
        have hpres : ∀ a : PullRequestRow,
            ((if a.prID == prID then { a with status := .MERGED, mergedAt := some now } else a).prID
              == prID) = (a.prID == prID) := by
          intro a
          by_cases hc : (a.prID == prID) = true <;> simp [hc]
        have hpred : (p.prID == prID) = true := by
          have h2 := hfind
          unfold findPR at h2
          exact List.find?_some (p := fun q : PullRequestRow => q.prID == prID) h2
        have hfind1 : findPR (st.prs.map (fun q =>
            if q.prID == prID then { q with status := .MERGED, mergedAt := some now } else q)) prID
            = some { p with status := .MERGED, mergedAt := some now } := by
          unfold findPR
          rw [find?_map_eq _ _ hpres]
          unfold findPR at hfind
          rw [hfind]
          simp only [Option.map_some']
          rw [if_pos hpred]
        rw [getPullRequest_ok hfind1] at h
        simp only [Except.map] at h
        cases h
        have hfid : ∀ q : PullRequestRow,
            (if q.prID == prID then { q with status := .MERGED, mergedAt := some now } else q).prID
              = q.prID := by
          intro q
          by_cases hc : (q.prID == prID) = true
          · rw [if_pos hc]
          · rw [if_neg hc]
        have hfauth : ∀ q : PullRequestRow,
            (if q.prID == prID then { q with status := .MERGED, mergedAt := some now } else q).authorID
              = q.authorID := by
          intro q
          by_cases hc : (q.prID == prID) = true
          · rw [if_pos hc]
          · rw [if_neg hc]
        constructor
        · intro hinv pr2 hpr2
          obtain ⟨p2, hp2, hp2e⟩ := List.mem_map.mp hpr2
          subst hp2e
          rw [hfid p2]
          exact hinv p2 hp2
        · intro hNA pr2 hpr2
          obtain ⟨p2, hp2, hp2e⟩ := List.mem_map.mp hpr2
          subst hp2e
          rw [hfid p2, hfauth p2]
          exact hNA p2 hp2
  · -- ReassignReviewer: nodup part only (author part fails, see counterexample)
    intro st prID old k st2 hyd nw h hinv
    exact reassign_ok_nodupInv h hinv
  · -- BulkDeactivateUsers: only users change
    intro st teamName uids st2 h
    unfold BulkDeactivateUsers at h
    by_cases hc : (!st.teams.contains teamName) = true
    · rw [if_pos hc] at h
      exact Except.noConfusion h
    · rw [if_neg hc] at h
      cases h
      exact ⟨fun hinv => hinv, fun hNA => hNA⟩
  · -- SafeReassignOpenPRs
    intro st ids ks hinv
    unfold SafeReassignOpenPRs
    by_cases hid : ids.length = 0
    · rw [if_pos hid]
      exact hinv
    · rw [if_neg hid]
      exact reassignLoop_nodupInv (toReassign st ids) st ks 0 hinv

/-- Witness for `serviceInvariants_amended`: the reassignment of the
counterexample state still yields a duplicate-free assignment set. -/
theorem serviceInvariants_amended_witness :
    NodupInv
      { teams := ["backend"],
        users := [⟨"u1", "Alice", "backend", true⟩, ⟨"u2", "Bob", "backend", true⟩,
                  ⟨"u3", "Charlie", "backend", true⟩],
        prs := [⟨"pr-1", "Test PR", "u1", .OPEN, 5, none⟩],
        prReviewers := [("pr-1", "u3"), ("pr-1", "u1")] } :=
  serviceInvariants_amended.2.2.2.2.1
    { teams := ["backend"],
      users := [⟨"u1", "Alice", "backend", true⟩, ⟨"u2", "Bob", "backend", true⟩,
                ⟨"u3", "Charlie", "backend", true⟩],
      prs := [⟨"pr-1", "Test PR", "u1", .OPEN, 5, none⟩],
      prReviewers := [("pr-1", "u3"), ("pr-1", "u2")] } "pr-1" "u2" 0
    { teams := ["backend"],
      users := [⟨"u1", "Alice", "backend", true⟩, ⟨"u2", "Bob", "backend", true⟩,
                ⟨"u3", "Charlie", "backend", true⟩],
      prs := [⟨"pr-1", "Test PR", "u1", .OPEN, 5, none⟩],
      prReviewers := [("pr-1", "u3"), ("pr-1", "u1")] }
    ⟨"pr-1", "Test PR", "u1", .OPEN, ["u1", "u3"], some 5, none⟩ "u1"
    (by decide) (by unfold NodupInv prAssignments; decide)

end PRService
